import Mathlib

/-!
Verification development for the Urban Drive real-time synchronization core.

The JavaScript sources are shallowly embedded as follows:

* JS numbers are modelled as exact reals (`ℝ`) in the server/client physics
  code (which uses `Math.cos`, `Math.sin`, `Math.sqrt`) and as rationals (`ℚ`)
  in the purely arithmetic interpolation and traffic code, so that the latter
  definitions stay executable.
* In the interpolation and traffic sections angles are measured in units of π
  (interpolation, `src/unnamed/part_002`) or described in the comments of each
  definition; the source works in radians, and every operation performed there
  is linear in the angle, so the change of unit is an exact rescaling.
* Timestamps (`Date.now()` values) are passed in explicitly as parameters:
  each place the source calls `Date.now()` becomes a distinct parameter.
* JS `Map`s keyed by WebSocket objects become association lists keyed by `ℕ`
  handles allocated by the server model itself (object identities are unique).
* Side effects (sending a wire message, closing a connection) are returned as
  an explicit list of `Effect`s.
* Operations that only touch rendering state (three.js meshes, wheels, the
  Oimo physics body, console logging, DOM elements) do not read or write the
  simulation state (`this.state`, queues, session registry) and are omitted.
-/

namespace WS

/-- Control flags of an input command as read by the server physics
(`src/urban-drive/server/network/websocket.js`, `updateVehicle`): the code
checks both the normalized names (`accelerate`, …) and the raw key names
(`up`, …).  A JS `undefined` field reads as `false`. -/
structure SControls where
  accelerate : Bool := false
  brake : Bool := false
  turnLeft : Bool := false
  turnRight : Bool := false
  handbrake : Bool := false
  up : Bool := false
  down : Bool := false
  left : Bool := false
  right : Bool := false
deriving Repr, DecidableEq

/-- The per-session vehicle state stored by the server (`clientState` in
`setupEventHandlers` / `client.state` in `handleMessage`). -/
structure SrvVehicleState where
  x : ℝ
  y : ℝ
  z : ℝ
  rotation : ℝ
  speed : ℝ
  sequence : ℝ
  timestamp : ℝ

/-- A JS value received on the wire in a numeric field position: either an
actual number, or anything else (`undefined`, string, …), which
`typeof v === 'number'` rejects. -/
inductive JsVal where
  | num (x : ℝ)
  | other

/-- Raw (unsanitized) components of `data.position` in a position message. -/
structure RawVec3 where
  x : JsVal
  y : JsVal
  z : JsVal

/-- A raw inbound `position` message before sanitization
(`handleMessage`, `case 'position'`). `position` and `controls` may be
absent (falsy) as whole objects. -/
structure RawPosMsg where
  position : Option RawVec3
  rotation : JsVal
  speed : JsVal
  sequence : JsVal
  controls : Option SControls
  timestamp : JsVal

/-- Sanitized position data (`data` after the default-filling block of
`case 'position'`, lines 247–270 of `websocket.js`). -/
structure PosMsg where
  posX : ℝ
  posY : ℝ
  posZ : ℝ
  rotation : ℝ
  speed : ℝ
  sequence : ℝ
  controls : SControls

/-- `typeof v === 'number' ? v : d` -/
def jsNumOr (v : JsVal) (d : ℝ) : ℝ :=
  match v with
  | .num x => x
  | .other => d

/-- The sanitization performed in `handleMessage`, `case 'position'`:
a missing position object becomes `{x: 0, y: 0.5, z: 0}`; otherwise each
non-numeric component is defaulted (x→0, y→0.5, z→0); non-numeric
`rotation`/`speed`/`sequence` default to 0; missing `controls` default to
all-false. -/
def sanitize (raw : RawPosMsg) : PosMsg :=
  let pos : ℝ × ℝ × ℝ :=
    match raw.position with
    | none => (0, 0.5, 0)
    | some p => (jsNumOr p.x 0, jsNumOr p.y 0.5, jsNumOr p.z 0)
  { posX := pos.1
    posY := pos.2.1
    posZ := pos.2.2
    rotation := jsNumOr raw.rotation 0
    speed := jsNumOr raw.speed 0
    sequence := jsNumOr raw.sequence 0
    controls := raw.controls.getD {} }

/-- Physics constants of the server's simplified model
(`initializePhysicsWorld`): maxSpeed 30, acceleration 5, braking 8,
turnSpeed 2, friction 0.98. -/
def maxSpeed : ℝ := 30
def acceleration : ℝ := 5
def braking : ℝ := 8
def turnSpeed : ℝ := 2
def friction : ℝ := 0.98

/-- The server's deterministic integration step
(`physicsWorld.updateVehicle` in `initializePhysicsWorld`): bounded
acceleration/braking, friction when coasting, fixed turn rate, then a
position update along the updated heading with the updated speed.
`sequence` and `timestamp` are carried over unchanged (object spread). -/
noncomputable def updateVehicle (vehicle : SrvVehicleState) (input : PosMsg)
    (deltaTime : ℝ) : SrvVehicleState :=
  let controls := input.controls
  let speed1 : ℝ :=
    if controls.accelerate || controls.up then
      min (vehicle.speed + acceleration * deltaTime) maxSpeed
    else if controls.brake || controls.down then
      max (vehicle.speed - braking * deltaTime) 0
    else
      vehicle.speed * friction
  let rot1 : ℝ :=
    if controls.turnLeft || controls.left then
      vehicle.rotation - turnSpeed * deltaTime
    else vehicle.rotation
  let rot2 : ℝ :=
    if controls.turnRight || controls.right then
      rot1 + turnSpeed * deltaTime
    else rot1
  { vehicle with
    speed := speed1
    rotation := rot2
    x := vehicle.x + Real.cos rot2 * speed1 * deltaTime
    y := vehicle.y + Real.sin rot2 * speed1 * deltaTime
    z := vehicle.z }

/-- The `serverReconciliation` wire message exactly as the object literal in
`processServerPhysics` builds it: `type`, `sequence`, `state{position,
rotation, speed}`, `timestamp`.  The literal contains **no** `id` property,
so the optional `id` field (present in other server→client messages and
expected by the client's `handleServerReconciliationMessage`) is `none`. -/
structure ReconMsg where
  id : Option ℕ
  sequence : ℝ
  statePosX : ℝ
  statePosY : ℝ
  statePosZ : ℝ
  stateRotation : ℝ
  stateSpeed : ℝ
  timestamp : ℝ

/-- Builds the reconciliation message of `processServerPhysics` from the
authoritative candidate `serverState`, the acknowledged `sequence`
(`client.state.sequence`) and the send timestamp (`Date.now()`). -/
def reconMessageOf (serverState : SrvVehicleState) (sequence : ℝ)
    (now : ℝ) : ReconMsg :=
  { id := none
    sequence := sequence
    statePosX := serverState.x
    statePosY := serverState.y
    statePosZ := serverState.z
    stateRotation := serverState.rotation
    stateSpeed := serverState.speed
    timestamp := now }

/-- Per-session data stored in the server's `clients` map
(`setupEventHandlers`), restricted to the fields the message handlers read
or write.  `wsOpen` models `client.ws.readyState === 1`. -/
structure SrvClient where
  id : ℕ
  lastPing : ℝ
  latency : ℝ
  state : SrvVehicleState
  lastInput : Option PosMsg
  lastInputTime : ℝ
  wsOpen : Bool

/-- Server→client wire messages, with the payload fields the claims refer
to; payloads not examined by any claim (the `playerList` array contents, the
stats inside `welcome`) are abbreviated. -/
inductive WireMsg where
  | welcome (id : ℕ) (maxPlayers currentPlayers : ℕ)
  | ping (timestamp : ℝ)
  | playerPosition (id : ℕ) (state : SrvVehicleState)
      (interpStart interpEnd : ℝ)
  | playerList
  | playerDisconnected (id : ℕ)
  | chatMessage (id : ℕ) (message : String)
  | serverReconciliation (m : ReconMsg)

/-- Effects emitted by the server embedding: a direct send to one session, a
broadcast to every session except the sender, a broadcast to all, or a
connection close with code and reason. -/
inductive Effect where
  | sendTo (clientId : ℕ) (m : WireMsg)
  | broadcastOthers (senderWs : ℕ) (m : WireMsg)
  | broadcastAll (m : WireMsg)
  | closeConn (ws : ℕ) (code : ℕ) (reason : String)

open Classical

/-- The state-discrepancy candidate of `processServerPhysics`
(lines 338–343 of `websocket.js`): re-integrate `client.state` — which
`handleMessage` has already overwritten with the client-reported values —
over `deltaTime = (Date.now() - client.lastInputTime) / 1000`. -/
noncomputable def serverCandidate (client : SrvClient) (input : PosMsg)
    (nowPhysics : ℝ) : SrvVehicleState :=
  updateVehicle client.state input ((nowPhysics - client.lastInputTime) / 1000)

/-- The drift test of `processServerPhysics`:
`positionDiff > 0.5 || rotationDiff > 0.1 || speedDiff > 1`, with
`positionDiff` the Euclidean distance over (x,y,z). -/
noncomputable def driftExceeded (serverState clientState : SrvVehicleState) : Prop :=
  Real.sqrt ((serverState.x - clientState.x) ^ 2 +
    (serverState.y - clientState.y) ^ 2 +
    (serverState.z - clientState.z) ^ 2) > 0.5 ∨
  |serverState.rotation - clientState.rotation| > 0.1 ∨
  |serverState.speed - clientState.speed| > 1

/-- `processServerPhysics(client)`: when a last input exists, form the
candidate, compare against the stored (client-reported) state with the three
drift thresholds, and on exceedance send a `serverReconciliation` message to
that session only and replace the stored state with the candidate (both only
when the socket is open).  `nowPhysics` and `nowSend` are the two separate
`Date.now()` calls (deltaTime, message timestamp). -/
noncomputable def processServerPhysics (client : SrvClient)
    (nowPhysics nowSend : ℝ) : SrvClient × List Effect :=
  match client.lastInput with
  | none => (client, [])
  | some input =>
    let serverState := serverCandidate client input nowPhysics
    if driftExceeded serverState client.state then
      if client.wsOpen then
        ({ client with state := serverState },
         [Effect.sendTo client.id
            (WireMsg.serverReconciliation
              (reconMessageOf serverState client.state.sequence nowSend))])
      else (client, [])
    else (client, [])

/-- `CONFIG.MAX_PLAYERS` from the shared configuration. -/
def MAX_PLAYERS : ℕ := 32

/-- `CONFIG.UPDATE_RATE` from the shared configuration. -/
def UPDATE_RATE : ℝ := 30

/-- `CONFIG.TIMEOUT_DURATION` (ms) from the shared configuration. -/
def TIMEOUT_DURATION : ℝ := 5000

/-- Parsed inbound client→server messages, by `data.type`:
`pong`, `position`, `chat`, and every unrecognized type (`default` branch). -/
inductive InMsg where
  | pong (timestamp : ℝ)
  | position (raw : RawPosMsg)
  | chat (message : String)
  | unknown

/-- The server state: the `clients` map (as an association list keyed by a
`ℕ` WebSocket handle; handles are allocated from `nextWs`, mirroring the
uniqueness of JS object identities), the monotonically assigned
`nextClientId`, and the `activeConnections` counter — the one field of
`connectionStats` the control flow reads; the remaining stats counters are
monitoring-only and omitted. -/
structure WSServer where
  clients : List (ℕ × SrvClient)
  nextClientId : ℕ
  nextWs : ℕ
  activeConnections : ℕ

/-- The server state right after construction. -/
def initServer : WSServer :=
  { clients := [], nextClientId := 1, nextWs := 0, activeConnections := 0 }

/-- In-place mutation of one entry of the `clients` map. -/
def updateClient (ws : ℕ) (f : SrvClient → SrvClient)
    (l : List (ℕ × SrvClient)) : List (ℕ × SrvClient) :=
  l.map fun p => if p.1 = ws then (p.1, f p.2) else p

/-- The first half of `case 'position'` of `handleMessage` (after
`client.lastPing` was refreshed): sanitize the message, store it as
`client.lastInput` with `client.lastInputTime = Date.now()` (`now1`), and
overwrite `client.state` with the client-reported sanitized values — all
before `processServerPhysics` runs. -/
noncomputable def storePosition (client : SrvClient) (raw : RawPosMsg)
    (now1 : ℝ) : SrvClient :=
  let data := sanitize raw
  { client with
    lastInput := some data
    lastInputTime := now1
    state :=
      { x := data.posX, y := data.posY, z := data.posZ
        rotation := data.rotation, speed := data.speed
        sequence := data.sequence, timestamp := now1 } }

/-- The remainder of `case 'position'`: run `processServerPhysics` on the
just-stored client and broadcast the resulting `client.state` to the other
sessions with the interpolation window
`[timestamp, timestamp + 1000/UPDATE_RATE]`. -/
noncomputable def handlePositionCase (client : SrvClient) (ws : ℕ)
    (raw : RawPosMsg) (now1 nowPhysics nowSend : ℝ) :
    SrvClient × List Effect :=
  let c1 := storePosition client raw now1
  let r := processServerPhysics c1 nowPhysics nowSend
  (r.1,
   r.2 ++ [Effect.broadcastOthers ws
      (WireMsg.playerPosition r.1.id r.1.state r.1.state.timestamp
        (r.1.state.timestamp + 1000 / UPDATE_RATE))])

/-- `handleMessage(ws, message)`: an unparseable message (`JSON.parse`
throws) is caught, logged and dropped; a message from an unknown socket is
dropped; otherwise the session's `lastPing` activity timestamp is refreshed
*before* the type dispatch, so every parsed message type — `pong`,
`position`, `chat` and unrecognized ones alike — refreshes it. -/
noncomputable def handleMessage (s : WSServer) (ws : ℕ) (raw : Option InMsg)
    (now1 nowPhysics nowSend : ℝ) : WSServer × List Effect :=
  match raw with
  | none => (s, [])
  | some m =>
    match s.clients.lookup ws with
    | none => (s, [])
    | some c =>
      let c0 : SrvClient := { c with lastPing := now1 }
      match m with
      | .pong ts =>
        ({ s with
            clients := updateClient ws
              (fun _ => { c0 with latency := now1 - ts }) s.clients }, [])
      | .position rawPos =>
        let r := handlePositionCase c0 ws rawPos now1 nowPhysics nowSend
        ({ s with clients := updateClient ws (fun _ => r.1) s.clients }, r.2)
      | .chat msg =>
        ({ s with clients := updateClient ws (fun _ => c0) s.clients },
         [Effect.broadcastAll (WireMsg.chatMessage c0.id msg)])
      | .unknown =>
        ({ s with clients := updateClient ws (fun _ => c0) s.clients }, [])

/-- The default `clientState` assigned at connection time. -/
def defaultClientState (now : ℝ) : SrvVehicleState :=
  { x := 0, y := 0, z := 0, rotation := 0, speed := 0, sequence := 0
    timestamp := now }

/-- The `connection` handler of `setupEventHandlers`: reject with close code
1000 and reason `"Server full"` when `activeConnections >= MAX_PLAYERS`
(creating no session and assigning no id); otherwise assign the next
monotonic id, store the new session with a default state, bump the counters,
send the welcome message, broadcast the player list and send an initial
ping. -/
def connect (s : WSServer) (now : ℝ) : WSServer × List Effect :=
  let ws := s.nextWs
  if MAX_PLAYERS ≤ s.activeConnections then
    ({ s with nextWs := ws + 1 }, [Effect.closeConn ws 1000 "Server full"])
  else
    let clientId := s.nextClientId
    let client : SrvClient :=
      { id := clientId, lastPing := now, latency := 0
        state := defaultClientState now, lastInput := none
        lastInputTime := 0, wsOpen := true }
    ({ clients := s.clients ++ [(ws, client)]
       nextClientId := clientId + 1
       nextWs := ws + 1
       activeConnections := s.activeConnections + 1 },
     [Effect.sendTo clientId
        (WireMsg.welcome clientId MAX_PLAYERS (s.activeConnections + 1)),
      Effect.broadcastAll WireMsg.playerList,
      Effect.sendTo clientId (WireMsg.ping now)])

/-- The per-socket `close` handler: if the socket is a known session, remove
it, decrement `activeConnections` and broadcast `playerDisconnected`. -/
def disconnect (s : WSServer) (ws : ℕ) : WSServer × List Effect :=
  match s.clients.lookup ws with
  | none => (s, [])
  | some c =>
    ({ s with
        clients := s.clients.filter (fun p => p.1 ≠ ws),
        activeConnections := s.activeConnections - 1 },
     [Effect.broadcastAll (WireMsg.playerDisconnected c.id)])

/-- The idle sweep of `startPeriodicTasks`: close (code 1000, reason
`"Timeout"`) every session whose last activity is older than
`TIMEOUT_DURATION`; the map entries themselves are removed later by the
resulting `close` events. -/
noncomputable def sweepEffects (s : WSServer) (now : ℝ) : List Effect :=
  s.clients.filterMap fun p =>
    if TIMEOUT_DURATION < now - p.2.lastPing then
      some (Effect.closeConn p.1 1000 "Timeout")
    else none

/-- The externally triggered server events. -/
inductive SrvEvent where
  | connect (now : ℝ)
  | disconnect (ws : ℕ)
  | message (ws : ℕ) (raw : Option InMsg) (now1 nowPhysics nowSend : ℝ)
  | sweep (now : ℝ)

/-- One step of the server: dispatch an event. The sweep changes no state
(removals happen through the `close` events it triggers). -/
noncomputable def step (s : WSServer) (e : SrvEvent) : WSServer × List Effect :=
  match e with
  | .connect now => connect s now
  | .disconnect ws => disconnect s ws
  | .message ws raw now1 nowPhysics nowSend =>
    handleMessage s ws raw now1 nowPhysics nowSend
  | .sweep now => (s, sweepEffects s now)

/-- The server state reached from startup by a list of events. -/
noncomputable def run (es : List SrvEvent) : WSServer :=
  es.foldl (fun s e => (step s e).1) initServer

end WS

namespace Vehicle

open Classical

/-- The raw keyboard control flags handed to `Vehicle.update`
(`src/unnamed/part_002`). -/
structure CControls where
  up : Bool := false
  down : Bool := false
  left : Bool := false
  right : Bool := false
  space : Bool := false
deriving Repr, DecidableEq

/-- `input.controls` as built inside `Vehicle.update`: both the raw key
names and the normalized names. -/
structure InputControls where
  up : Bool
  down : Bool
  left : Bool
  right : Bool
  space : Bool
  accelerate : Bool
  brake : Bool
  turnLeft : Bool
  turnRight : Bool
  handbrake : Bool
deriving Repr, DecidableEq

/-- A collision record handed to `Vehicle.update` by the collision manager:
its unit surface `normal` (a three.js `Vector3`) and `penetration` depth. -/
structure CollisionInfo where
  normalX : ℝ
  normalY : ℝ
  normalZ : ℝ
  penetration : ℝ

/-- An `InputCommand` as built and queued inside `Vehicle.update`. -/
structure CInput where
  sequence : ℕ
  controls : InputControls
  deltaTime : ℝ
  timestamp : ℝ
  collision : Option CollisionInfo

/-- The local vehicle's physical state (`this.state` of the `Vehicle`
class): speed, heading (radians), position, angular velocity and the
collision bookkeeping fields. -/
structure CVehState where
  speed : ℝ
  rotation : ℝ
  posX : ℝ
  posY : ℝ
  posZ : ℝ
  angularVelocity : ℝ
  isColliding : Bool
  lastCollision : Option CollisionInfo

/-- Vehicle physics parameters (`this.params` of the `Vehicle` class). -/
def maxSpeed : ℝ := 100
def acceleration : ℝ := 15
def braking : ℝ := 20
def reverseSpeed : ℝ := 40
noncomputable def steeringAngle : ℝ := Real.pi / 4
def steeringSpeed : ℝ := 4
def frictionParam : ℝ := 0.7
def collisionRestitution : ℝ := 0.4
def fixedHeight : ℝ := 0.5
def historyMaxSize : ℕ := 100

/-- `Math.sign`. -/
noncomputable def jsSign (x : ℝ) : ℝ :=
  if 0 < x then 1 else if x < 0 then -1 else 0

/-- `Vehicle._handleCollision(collision, dt)` restricted to its effects on
`this.state` (`speed`, `angularVelocity`, `position`, `isColliding`,
`lastCollision`); the camera shake and visual-bounce bookkeeping touch only
rendering objects.  The `dt` argument is kept although the state mutations
do not use it. -/
noncomputable def handleCollisionState (st : CVehState)
    (collision : CollisionInfo) (dt : ℝ) : CVehState :=
  let st1 : CVehState := { st with isColliding := true
                                   lastCollision := some collision }
  let impactSpeed := st1.speed
  let normalizedSpeed := |impactSpeed| / maxSpeed
  -- forward direction is (sin rotation, 0, cos rotation)
  let nc := Real.sin st1.rotation * collision.normalX +
    Real.cos st1.rotation * collision.normalZ
  if impactSpeed * nc < 0 then
    let speedReduction := impactSpeed * |nc| * (1 + collisionRestitution)
    let enhancedSpeedReduction := speedReduction * (1 + normalizedSpeed)
    let speed2 := st1.speed - enhancedSpeedReduction
    let speed3 :=
      if 20 < |impactSpeed| ∧ 0.5 < |nc| then
        let bounceForce := collisionRestitution *
          (0.2 + normalizedSpeed * 0.5) * |impactSpeed|;
        (-bounceForce) * jsSign impactSpeed * nc
      else if 10 < |speedReduction| ∧ 0.3 < |nc| then
        let mediumBounce := collisionRestitution * 0.3 * |impactSpeed|;
        (-mediumBounce) * jsSign impactSpeed * nc
      else if |speed2| < 1 then 0
      else speed2
    let ang :=
      if |nc| < 0.8 ∧ 0.2 < |nc| then
        let sideComponent := 1 - |nc|
        let torqueEffect := sideComponent * normalizedSpeed * 0.7
        -- (forward × normal).y = forward.z·normal.x - forward.x·normal.z
        let crossY := Real.cos st1.rotation * collision.normalX -
          Real.sin st1.rotation * collision.normalZ
        st1.angularVelocity + jsSign crossY * torqueEffect
      else st1.angularVelocity
    let pushbackFactor := 1.05 + normalizedSpeed * 0.2
    let pushbackDistance := collision.penetration * pushbackFactor
    { st1 with
      speed := speed3
      angularVelocity := ang
      posX := st1.posX + collision.normalX * pushbackDistance
      posY := fixedHeight
      posZ := st1.posZ + collision.normalZ * pushbackDistance }
  else st1

/-- `Vehicle._processInput(input)` restricted to its effect on `this.state`
(the mesh, wheel and Oimo-body updates are rendering-only): collision
response (or clearing `isColliding`), the non-linear acceleration / braking
/ friction law, speed-dependent steering with clamped angular velocity, and
the forward-Euler position/heading update with forward direction
`(sin rotation, 0, cos rotation)`. -/
noncomputable def processInputState (st : CVehState) (input : CInput) :
    CVehState :=
  let dt := input.deltaTime
  let controls := input.controls
  let st0 :=
    match input.collision with
    | some c => handleCollisionState st c dt
    | none => { st with isColliding := false }
  let speed1 :=
    if controls.accelerate || controls.up then
      let currentSpeedRatio := |st0.speed| / maxSpeed
      let accelerationFactor := 1 - currentSpeedRatio * 0.7
      let s := st0.speed + acceleration * accelerationFactor * dt
      if maxSpeed < s then maxSpeed else s
    else if controls.brake || controls.down then
      if 0 < st0.speed then
        let s := st0.speed - braking * dt
        if s < 0.1 then 0 else s
      else
        let currentSpeedRatio := |st0.speed| / reverseSpeed
        let accelerationFactor := 1 - currentSpeedRatio * 0.5
        let s := st0.speed - acceleration * accelerationFactor * dt
        if s < -reverseSpeed then -reverseSpeed else s
    else
      if 0.1 < |st0.speed| then
        let frictionForce := frictionParam * dt * 5
        st0.speed * (1 - frictionForce)
      else 0
  let minSpeedForSteering : ℝ := 0.1
  let ang :=
    if minSpeedForSteering < |speed1| then
      let speedFactor := 1 - min |speed1| maxSpeed / maxSpeed * 0.3
      let ang0 :=
        if controls.turnLeft || controls.left then
          steeringSpeed * speedFactor
        else if controls.turnRight || controls.right then
          -(steeringSpeed * speedFactor)
        else
          let a := st0.angularVelocity * 0.95
          if |a| < 0.01 then 0 else a
      let maxAngularVelocity := steeringAngle * speedFactor
      max (-maxAngularVelocity) (min maxAngularVelocity ang0)
    else 0
  let turnRate := ang * dt
  { st0 with
    speed := speed1
    angularVelocity := ang
    posX := st0.posX + Real.sin st0.rotation * speed1 * dt
    posZ := st0.posZ + Real.cos st0.rotation * speed1 * dt
    rotation := st0.rotation + turnRate }

/-- The authoritative `state` payload of a `serverReconciliation` message as
read by `Vehicle.applyServerReconciliation`. -/
structure ServerStateMsg where
  posX : ℝ
  posY : ℝ
  posZ : ℝ
  rotation : ℝ
  speed : ℝ

/-- The prediction/reconciliation fields of the `Vehicle` object
(constructor lines 833–838 of `src/unnamed/part_002`): the bounded input
history, the pending-input queue, the input sequence counter and the last
acknowledged server state. -/
structure VehicleRec where
  state : CVehState
  inputHistory : List CInput
  pendingInputs : List CInput
  sequence : ℕ
  lastProcessedServerState : Option ServerStateMsg

/-- The control normalization inside `Vehicle.update`: the raw keys are kept
and duplicated under the normalized names. -/
def normalizeControls (c : CControls) : InputControls :=
  { up := c.up, down := c.down, left := c.left, right := c.right
    space := c.space, accelerate := c.up, brake := c.down
    turnLeft := c.left, turnRight := c.right, handbrake := c.space }

/-- `Vehicle.update(controls, deltaTime, collision)`: a falsy `controls` or
`deltaTime` (absent controls, zero delta) returns immediately; otherwise an
`InputCommand` is built with the next sequence number and `dt` in seconds,
appended to `inputHistory` (whose **oldest entry is shifted off when the
length exceeds `historyMaxSize`**), appended unconditionally to
`pendingInputs`, and processed immediately for prediction.  `now` is the
`Date.now()` stamped into the command. -/
noncomputable def update (v : VehicleRec) (controls : Option CControls)
    (deltaTime : ℝ) (collision : Option CollisionInfo) (now : ℝ) :
    VehicleRec :=
  match controls with
  | none => v
  | some ctl =>
    if deltaTime = 0 then v
    else
      let dt := deltaTime / 1000
      let input : CInput :=
        { sequence := v.sequence
          controls := normalizeControls ctl
          deltaTime := dt
          timestamp := now
          collision := collision }
      let hist1 := v.inputHistory ++ [input]
      let hist2 := if historyMaxSize < hist1.length then hist1.tail else hist1
      { v with
        state := processInputState v.state input
        inputHistory := hist2
        pendingInputs := v.pendingInputs ++ [input]
        sequence := v.sequence + 1 }

/-- The client-side drift test of `Vehicle.applyServerReconciliation`:
planar position discrepancy (y is not reconciled) `> 0.5`, or heading
discrepancy `> 0.1`, or speed discrepancy `> 2`. -/
noncomputable def significantDiscrepancy (serverState : ServerStateMsg)
    (st : CVehState) : Prop :=
  Real.sqrt ((serverState.posX - st.posX) ^ 2 +
    (serverState.posZ - st.posZ) ^ 2) > 0.5 ∨
  |serverState.rotation - st.rotation| > 0.1 ∨
  |serverState.speed - st.speed| > 2

/-- `Vehicle.applyServerReconciliation(serverState, sequence, timestamp)`:
record the server state; find the pending input whose sequence equals the
acknowledged one and splice off everything up to and including it (nothing
is spliced when the sequence is not found); then — only when the
authoritative state differs from the current local state beyond the
`significantDiscrepancy` thresholds — snap the local state to the
authoritative values (y forced to `fixedHeight`) and replay every remaining
pending input in order through `processInputState`. -/
noncomputable def applyServerReconciliation (v : VehicleRec)
    (serverState : ServerStateMsg) (sequence : ℕ) : VehicleRec :=
  let pending1 :=
    match v.pendingInputs.findIdx? (fun i => i.sequence = sequence) with
    | some ackIndex => v.pendingInputs.drop (ackIndex + 1)
    | none => v.pendingInputs
  if significantDiscrepancy serverState v.state then
    let snapped : CVehState :=
      { v.state with
        posX := serverState.posX
        posY := fixedHeight
        posZ := serverState.posZ
        rotation := serverState.rotation
        speed := serverState.speed }
    { v with
      lastProcessedServerState := some serverState
      pendingInputs := pending1
      state := pending1.foldl processInputState snapped }
  else
    { v with
      lastProcessedServerState := some serverState
      pendingInputs := pending1 }

end Vehicle

namespace Interp

/-!
Embedding of `Vehicle.updateInterpolation` (remote-player smoothing,
`src/unnamed/part_002` lines 1328–1355).  All arithmetic here is
exact rational arithmetic, and headings are measured in units of π
(1 unit = π radians): every operation the source performs on an angle is
linear, and the loop bounds `Math.PI` / `2 * Math.PI` become `1` / `2`, so
this is an exact rescaling of the radian computation.
-/

/-- A discrete remote-entity state used by the interpolation: planar
position and heading (in units of π). -/
structure RemoteState where
  posX : ℚ
  posZ : ℚ
  rot : ℚ
deriving Repr, DecidableEq

/-- The interpolation window `{startTime, endTime}` attached to the target
state by the broadcast. -/
structure InterpWindow where
  startTime : ℚ
  endTime : ℚ
deriving Repr, DecidableEq

/-- The two normalization loops
`while (rotationDiff > Math.PI) rotationDiff -= 2*Math.PI;`
`while (rotationDiff < -Math.PI) rotationDiff += 2*Math.PI;`
in units of π.  Each loop subtracts/adds 2 until the value first enters the
stopping region, which lands `d > 1` in `(-1, 1]` after
`⌈(d-1)/2⌉` iterations and `d < -1` in `[-1, 1)` after `⌈(-1-d)/2⌉`
iterations; `wrapAngle_spec` certifies this closed form. -/
def wrapAngle (d : ℚ) : ℚ :=
  if 1 < d then d - 2 * ⌈(d - 1) / 2⌉
  else if d < -1 then d + 2 * ⌈(-1 - d) / 2⌉
  else d

/-- `Vehicle.updateInterpolation` (given both a current and a target state):
compute `progress = (now - startTime) / (endTime - startTime)` — with no
clamping below — snap to the target once `progress >= 1`, and otherwise
move the *current* displayed state toward the target by the fraction
`progress` (a three.js `lerp` of the current state, not of the state stored
at window start), the heading through `wrapAngle`. -/
def updateInterpolation (current target : RemoteState) (win : InterpWindow)
    (now : ℚ) : RemoteState :=
  let interpolationProgress :=
    (now - win.startTime) / (win.endTime - win.startTime)
  if 1 ≤ interpolationProgress then target
  else
    { posX := current.posX +
        (target.posX - current.posX) * interpolationProgress
      posZ := current.posZ +
        (target.posZ - current.posZ) * interpolationProgress
      rot := current.rot +
        wrapAngle (target.rot - current.rot) * interpolationProgress }

/-- Modelled from the spec (the refinement side of the interpolation claim):
`progress = clamp((now - windowStart) / (windowEnd - windowStart), 0, 1)`. -/
def specProgress (win : InterpWindow) (now : ℚ) : ℚ :=
  max 0 (min 1 ((now - win.startTime) / (win.endTime - win.startTime)))

/-- Modelled from the spec (the refinement side of the interpolation claim):
normalization of a heading difference into `(-π, π]`, in units of π. -/
def specWrap (d : ℚ) : ℚ := d - 2 * ⌈(d - 1) / 2⌉

/-- Modelled from the spec (the refinement side of the interpolation claim):
the displayed state at time `now` — position linearly interpolated between
the stored previous state and the target by the clamped progress, heading
interpolated along the shortest angular path. -/
def specDisplayed (prev target : RemoteState) (win : InterpWindow)
    (now : ℚ) : RemoteState :=
  { posX := prev.posX + (target.posX - prev.posX) * specProgress win now
    posZ := prev.posZ + (target.posZ - prev.posZ) * specProgress win now
    rot := prev.rot + specWrap (target.rot - prev.rot) * specProgress win now }

end Interp

namespace Traffic

/-!
Embedding of the traffic state machine's turning handler
(`src/urban-drive/server/game-state/traffic.js`, `handleTurningState`).
Arithmetic is exact rational arithmetic; headings are in units of π
(the source's `Math.PI / 2` becomes `1/2`, `2 * Math.PI` becomes `2`).
-/

/-- `this.states`: the three traffic-AI states. -/
inductive TrafficState where
  | moving
  | stopped
  | turning
deriving Repr, DecidableEq

/-- The fields of a traffic vehicle read or written by
`handleTurningState`: heading (units of π), AI state, time in state,
and `nextTurn.direction` (`1` right, `-1` left). -/
structure TrafficVehicle where
  rotation : ℚ
  state : TrafficState
  stateTime : ℚ
  turnDirection : ℚ
deriving Repr, DecidableEq

/-- The normalization loops
`while (vehicle.rotation < 0) vehicle.rotation += Math.PI * 2;`
`while (vehicle.rotation >= Math.PI * 2) vehicle.rotation -= Math.PI * 2;`
in units of π: they land at the unique value in `[0, 2)` congruent to the
input mod 2, which is `r - 2⌊r/2⌋`; `normRotation_spec` certifies this
closed form. -/
def normRotation (r : ℚ) : ℚ := r - 2 * ⌊r / 2⌋

/-- `Traffic.handleTurningState(vehicle, deltaTime)`: while
`stateTime < 1` rotate at π/2 per second in the chosen direction and keep
the heading normalized into `[0, 2π)`; on completion snap the heading to
the nearest multiple of π/2 (`Math.round(rotation / (π/2)) * (π/2)`,
which in units of π is `round(2·r)/2`), normalize into `[0, 2π)`, and
return to `MOVING` with `stateTime` reset. -/
def handleTurningState (vehicle : TrafficVehicle) (deltaTime : ℚ) :
    TrafficVehicle :=
  if vehicle.stateTime < 1 then
    let turnAmount := 1 / 2 * deltaTime * vehicle.turnDirection
    { vehicle with rotation := normRotation (vehicle.rotation + turnAmount) }
  else
    { vehicle with
      rotation := normRotation ((round (vehicle.rotation * 2) : ℚ) / 2)
      state := TrafficState.moving
      stateTime := 0 }

end Traffic

namespace Connection

/-- `handleServerReconciliationMessage` of the client connection
(`src/urban-drive/client/network/connection.js`): the correction is applied
only when `message.id !== this.id` is false, i.e. only when both the
message's `id` and the client's own id are present numbers and equal
(`this.id` starts as `null`; a missing `message.id` reads as `undefined`,
and `undefined !== n`, `undefined !== null` are both true in JS). -/
def reconAccepted (selfId : Option ℕ) (m : WS.ReconMsg) : Bool :=
  match m.id, selfId with
  | some a, some b => a == b
  | _, _ => false

end Connection

/-! ## Claim theorems -/

/-- The closed form of the while-loop normalization into `[0, 2π)` used by
`Traffic.handleTurningState` (in units of π: into `[0, 2)`): the result is
in range and differs from the input by an integer multiple of 2π, which is
exactly the fixed point the two loops reach. -/
theorem normRotation_spec (r : ℚ) :
    0 ≤ Traffic.normRotation r ∧ Traffic.normRotation r < 2 ∧
    ∃ k : ℤ, Traffic.normRotation r = r - 2 * k := by
  unfold Traffic.normRotation
  have h1 : (⌊r / 2⌋ : ℚ) ≤ r / 2 := Int.floor_le _
  have h2 : r / 2 < ⌊r / 2⌋ + 1 := Int.lt_floor_add_one _
  refine ⟨by linarith, by linarith, ⟨⌊r / 2⌋, by ring⟩⟩

/-- The closed form of the while-loop normalization of a heading difference
used by `Vehicle.updateInterpolation` (in units of π): the result lies in
`[-π, π]` and differs from the input by an integer multiple of 2π. -/
theorem wrapAngle_spec (d : ℚ) :
    -1 ≤ Interp.wrapAngle d ∧ Interp.wrapAngle d ≤ 1 ∧
    ∃ k : ℤ, Interp.wrapAngle d = d - 2 * k := by
  unfold Interp.wrapAngle
  split_ifs with h1 h2
  · have hk1 : ((d - 1) / 2 : ℚ) ≤ ⌈(d - 1) / 2⌉ := Int.le_ceil _
    have hk2 : (⌈(d - 1) / 2⌉ : ℚ) < (d - 1) / 2 + 1 := Int.ceil_lt_add_one _
    exact ⟨by linarith, by linarith, ⟨⌈(d - 1) / 2⌉, by ring⟩⟩
  · have hk1 : ((-1 - d) / 2 : ℚ) ≤ ⌈(-1 - d) / 2⌉ := Int.le_ceil _
    have hk2 : (⌈(-1 - d) / 2⌉ : ℚ) < (-1 - d) / 2 + 1 := Int.ceil_lt_add_one _
    refine ⟨by linarith, by linarith, ⟨-⌈(-1 - d) / 2⌉, ?_⟩⟩
    push_cast
    ring
  · push_neg at h1 h2
    exact ⟨h2, h1, ⟨0, by ring⟩⟩

/-- C8: when a `TURNING` state completes (`stateTime` has reached 1), the
actor transitions to `MOVING` and its heading is an exact multiple of π/2
(so a multiple within any epsilon) lying in `[0, 2π)`.  Headings are in
units of π, so `m * (1/2)` is `m·π/2` and the range `[0, 2)` is
`[0, 2π)`. -/
theorem c8_turn_completion_snaps_heading (v : Traffic.TrafficVehicle)
    (deltaTime : ℚ) (h : ¬ v.stateTime < 1) :
    (Traffic.handleTurningState v deltaTime).state = Traffic.TrafficState.moving ∧
    (∃ m : ℤ, (Traffic.handleTurningState v deltaTime).rotation = m * (1 / 2)) ∧
    0 ≤ (Traffic.handleTurningState v deltaTime).rotation ∧
    (Traffic.handleTurningState v deltaTime).rotation < 2 := by
  unfold Traffic.handleTurningState
  rw [if_neg h]
  obtain ⟨hlo, hhi, k, hk⟩ := normRotation_spec ((round (v.rotation * 2) : ℚ) / 2)
  refine ⟨rfl, ⟨round (v.rotation * 2) - 4 * k, ?_⟩, hlo, hhi⟩
  simp only [hk]
  push_cast
  ring

/-- C8 witness: a concrete turning actor at `stateTime = 1`. -/
theorem c8_turn_completion_snaps_heading_witness :
    ¬ (Traffic.TrafficVehicle.mk 0.3 Traffic.TrafficState.turning 1 1).stateTime < 1 ∧
    ((Traffic.handleTurningState
        (Traffic.TrafficVehicle.mk 0.3 Traffic.TrafficState.turning 1 1)
        (1 / 30)).state = Traffic.TrafficState.moving ∧
      (∃ m : ℤ, (Traffic.handleTurningState
        (Traffic.TrafficVehicle.mk 0.3 Traffic.TrafficState.turning 1 1)
        (1 / 30)).rotation = m * (1 / 2)) ∧
      0 ≤ (Traffic.handleTurningState
        (Traffic.TrafficVehicle.mk 0.3 Traffic.TrafficState.turning 1 1)
        (1 / 30)).rotation ∧
      (Traffic.handleTurningState
        (Traffic.TrafficVehicle.mk 0.3 Traffic.TrafficState.turning 1 1)
        (1 / 30)).rotation < 2) :=
  ⟨by decide,
   c8_turn_completion_snaps_heading
     (Traffic.TrafficVehicle.mk 0.3 Traffic.TrafficState.turning 1 1)
     (1 / 30) (by decide)⟩

/-- C7 counterexample: the claim states progress is
`clamp((now - windowStart)/(windowEnd - windowStart), 0, 1)` and the heading
difference is normalized into `(-π, π]`.  At `now = 50` before the window
`[100, 200]`, the code's progress is `-1/2` (no clamp at 0), so the
displayed x-position is `-1/2` while the claim's formula gives `0`; and the
code's normalization sends a difference of `-π` to `-π` (in units of π:
`wrapAngle (-1) = -1`), which is outside `(-π, π]`, while the spec's
normalization gives `π`. -/
theorem c7_progress_not_clamped_counterexample :
    (Interp.updateInterpolation (Interp.RemoteState.mk 0 0 0)
        (Interp.RemoteState.mk 1 0 0) (Interp.InterpWindow.mk 100 200)
        50).posX = -(1 / 2) ∧
    (Interp.specDisplayed (Interp.RemoteState.mk 0 0 0)
        (Interp.RemoteState.mk 1 0 0) (Interp.InterpWindow.mk 100 200)
        50).posX = 0 ∧
    Interp.updateInterpolation (Interp.RemoteState.mk 0 0 0)
        (Interp.RemoteState.mk 1 0 0) (Interp.InterpWindow.mk 100 200) 50 ≠
      Interp.specDisplayed (Interp.RemoteState.mk 0 0 0)
        (Interp.RemoteState.mk 1 0 0) (Interp.InterpWindow.mk 100 200) 50 ∧
    Interp.wrapAngle (-1) = -1 ∧ Interp.specWrap (-1) = 1 := by
  have h1 : (Interp.updateInterpolation (Interp.RemoteState.mk 0 0 0)
      (Interp.RemoteState.mk 1 0 0) (Interp.InterpWindow.mk 100 200)
      50).posX = -(1 / 2) := by
    norm_num [Interp.updateInterpolation]
  have h2 : (Interp.specDisplayed (Interp.RemoteState.mk 0 0 0)
      (Interp.RemoteState.mk 1 0 0) (Interp.InterpWindow.mk 100 200)
      50).posX = 0 := by
    norm_num [Interp.specDisplayed, Interp.specProgress]
  refine ⟨h1, h2, ?_, ?_, ?_⟩
  · intro h
    rw [h, h2] at h1
    norm_num at h1
  · norm_num [Interp.wrapAngle]
  · norm_num [Interp.specWrap, Int.ceil_neg, Int.floor_one]

/-- C7 (amended): with a nondegenerate window, the displayed state snaps to
(and is then held at) the target once the raw progress
`(now - windowStart)/(windowEnd - windowStart)` reaches 1; below 1 the code
moves the *current* displayed state toward the target by that raw progress
fraction — which is not clamped below at 0 — with the heading difference
passed through the while-loop normalization into `[-π, π]` (an integer
number of full turns away from the raw difference, hence never the long way
around); and the raw progress is monotone in `now`. -/
theorem c7_interpolation_characterization (current target : Interp.RemoteState)
    (win : Interp.InterpWindow) (now now2 : ℚ)
    (h : win.startTime < win.endTime) :
    (1 ≤ (now - win.startTime) / (win.endTime - win.startTime) →
      Interp.updateInterpolation current target win now = target) ∧
    ((now - win.startTime) / (win.endTime - win.startTime) < 1 →
      Interp.updateInterpolation current target win now =
        Interp.RemoteState.mk
          (current.posX + (target.posX - current.posX) *
            ((now - win.startTime) / (win.endTime - win.startTime)))
          (current.posZ + (target.posZ - current.posZ) *
            ((now - win.startTime) / (win.endTime - win.startTime)))
          (current.rot + Interp.wrapAngle (target.rot - current.rot) *
            ((now - win.startTime) / (win.endTime - win.startTime)))) ∧
    (now ≤ now2 →
      (now - win.startTime) / (win.endTime - win.startTime) ≤
        (now2 - win.startTime) / (win.endTime - win.startTime)) ∧
    (-1 ≤ Interp.wrapAngle (target.rot - current.rot) ∧
      Interp.wrapAngle (target.rot - current.rot) ≤ 1 ∧
      ∃ k : ℤ, Interp.wrapAngle (target.rot - current.rot) =
        target.rot - current.rot - 2 * k) := by
  refine ⟨?_, ?_, ?_, ?_⟩
  · intro hp
    unfold Interp.updateInterpolation
    rw [if_pos hp]
  · intro hp
    unfold Interp.updateInterpolation
    rw [if_neg (not_le.mpr hp)]
  · intro hle
    have hd : (0 : ℚ) < win.endTime - win.startTime := by linarith
    exact (div_le_div_iff_of_pos_right hd).mpr (by linarith)
  · obtain ⟨h1, h2, k, hk⟩ := wrapAngle_spec (target.rot - current.rot)
    exact ⟨h1, h2, ⟨k, hk⟩⟩

/-- C7 witness: a concrete remote state, target and window. -/
theorem c7_interpolation_characterization_witness :
    (Interp.InterpWindow.mk 100 200).startTime <
      (Interp.InterpWindow.mk 100 200).endTime ∧
    (1 ≤ ((150 : ℚ) - (Interp.InterpWindow.mk 100 200).startTime) /
        ((Interp.InterpWindow.mk 100 200).endTime -
          (Interp.InterpWindow.mk 100 200).startTime) →
      Interp.updateInterpolation (Interp.RemoteState.mk 0 0 0)
        (Interp.RemoteState.mk 4 2 1) (Interp.InterpWindow.mk 100 200) 150 =
        Interp.RemoteState.mk 4 2 1) ∧
    (((150 : ℚ) - (Interp.InterpWindow.mk 100 200).startTime) /
        ((Interp.InterpWindow.mk 100 200).endTime -
          (Interp.InterpWindow.mk 100 200).startTime) < 1 →
      Interp.updateInterpolation (Interp.RemoteState.mk 0 0 0)
        (Interp.RemoteState.mk 4 2 1) (Interp.InterpWindow.mk 100 200) 150 =
        Interp.RemoteState.mk
          ((Interp.RemoteState.mk 0 0 0).posX +
            ((Interp.RemoteState.mk 4 2 1).posX -
              (Interp.RemoteState.mk 0 0 0).posX) *
            (((150 : ℚ) - (Interp.InterpWindow.mk 100 200).startTime) /
              ((Interp.InterpWindow.mk 100 200).endTime -
                (Interp.InterpWindow.mk 100 200).startTime)))
          ((Interp.RemoteState.mk 0 0 0).posZ +
            ((Interp.RemoteState.mk 4 2 1).posZ -
              (Interp.RemoteState.mk 0 0 0).posZ) *
            (((150 : ℚ) - (Interp.InterpWindow.mk 100 200).startTime) /
              ((Interp.InterpWindow.mk 100 200).endTime -
                (Interp.InterpWindow.mk 100 200).startTime)))
          ((Interp.RemoteState.mk 0 0 0).rot +
            Interp.wrapAngle ((Interp.RemoteState.mk 4 2 1).rot -
              (Interp.RemoteState.mk 0 0 0).rot) *
            (((150 : ℚ) - (Interp.InterpWindow.mk 100 200).startTime) /
              ((Interp.InterpWindow.mk 100 200).endTime -
                (Interp.InterpWindow.mk 100 200).startTime)))) ∧
    ((150 : ℚ) ≤ 180 →
      ((150 : ℚ) - (Interp.InterpWindow.mk 100 200).startTime) /
        ((Interp.InterpWindow.mk 100 200).endTime -
          (Interp.InterpWindow.mk 100 200).startTime) ≤
        ((180 : ℚ) - (Interp.InterpWindow.mk 100 200).startTime) /
          ((Interp.InterpWindow.mk 100 200).endTime -
            (Interp.InterpWindow.mk 100 200).startTime)) ∧
    (-1 ≤ Interp.wrapAngle ((Interp.RemoteState.mk 4 2 1).rot -
        (Interp.RemoteState.mk 0 0 0).rot) ∧
      Interp.wrapAngle ((Interp.RemoteState.mk 4 2 1).rot -
        (Interp.RemoteState.mk 0 0 0).rot) ≤ 1 ∧
      ∃ k : ℤ, Interp.wrapAngle ((Interp.RemoteState.mk 4 2 1).rot -
          (Interp.RemoteState.mk 0 0 0).rot) =
        (Interp.RemoteState.mk 4 2 1).rot -
          (Interp.RemoteState.mk 0 0 0).rot - 2 * k) :=
  ⟨by decide,
   (c7_interpolation_characterization (Interp.RemoteState.mk 0 0 0)
      (Interp.RemoteState.mk 4 2 1) (Interp.InterpWindow.mk 100 200) 150 180
      (by decide)).1,
   (c7_interpolation_characterization (Interp.RemoteState.mk 0 0 0)
      (Interp.RemoteState.mk 4 2 1) (Interp.InterpWindow.mk 100 200) 150 180
      (by decide)).2.1,
   (c7_interpolation_characterization (Interp.RemoteState.mk 0 0 0)
      (Interp.RemoteState.mk 4 2 1) (Interp.InterpWindow.mk 100 200) 150 180
      (by decide)).2.2.1,
   (c7_interpolation_characterization (Interp.RemoteState.mk 0 0 0)
      (Interp.RemoteState.mk 4 2 1) (Interp.InterpWindow.mk 100 200) 150 180
      (by decide)).2.2.2⟩

/-- C1 (amended): for every position message the validator's candidate is
the deterministic integration applied to the **client-reported** sanitized
state that `handleMessage` has just stored into `client.state` — over the
time elapsed since that same message's arrival — and it does not depend on
the session's previous authoritative state at all (two sessions with
arbitrary different previous states yield the same candidate for the same
message). -/
theorem c1_candidate_computed_from_reported_state (c c' : WS.SrvClient)
    (raw : WS.RawPosMsg) (now1 nowPhysics : ℝ) :
    WS.serverCandidate (WS.storePosition c raw now1) (WS.sanitize raw)
        nowPhysics =
      WS.updateVehicle (WS.storePosition c raw now1).state (WS.sanitize raw)
        ((nowPhysics - now1) / 1000) ∧
    WS.serverCandidate (WS.storePosition c raw now1) (WS.sanitize raw)
        nowPhysics =
      WS.serverCandidate (WS.storePosition c' raw now1) (WS.sanitize raw)
        nowPhysics :=
  ⟨rfl, rfl⟩

/-- The previous authoritative state of the C1 counterexample session:
at rest (speed 0) at the origin. -/
def prevStateC1 : WS.SrvVehicleState :=
  { x := 0, y := 0, z := 0, rotation := 0, speed := 0, sequence := 0
    timestamp := 0 }

/-- The C1 counterexample session before the message arrives. -/
def clientC1 : WS.SrvClient :=
  { id := 1, lastPing := 0, latency := 0, state := prevStateC1
    lastInput := none, lastInputTime := 0, wsOpen := true }

/-- The C1 counterexample position message: the client reports speed 20
with no controls held. -/
def rawC1 : WS.RawPosMsg :=
  { position := some ⟨WS.JsVal.num 0, WS.JsVal.num 0.5, WS.JsVal.num 0⟩
    rotation := WS.JsVal.num 0
    speed := WS.JsVal.num 20
    sequence := WS.JsVal.num 1
    controls := some {}
    timestamp := WS.JsVal.num 0 }

/-- C1 counterexample: the claim says the candidate is the integration
applied to the session's **previous** authoritative state.  For a session
previously at rest (speed 0) that reports speed 20 with no controls held,
the code's candidate has speed `20 · 0.98 = 19.6` (friction applied to the
reported state), while integrating the previous authoritative state over
the same elapsed time gives speed `0 · 0.98 = 0` — so the candidate is not
what the claim says it is. -/
theorem c1_candidate_ignores_previous_state_counterexample :
    (WS.serverCandidate (WS.storePosition clientC1 rawC1 1000)
        (WS.sanitize rawC1) 1000).speed = 19.6 ∧
    (WS.updateVehicle clientC1.state (WS.sanitize rawC1)
        ((1000 - 1000) / 1000)).speed = 0 ∧
    WS.serverCandidate (WS.storePosition clientC1 rawC1 1000)
        (WS.sanitize rawC1) 1000 ≠
      WS.updateVehicle clientC1.state (WS.sanitize rawC1)
        ((1000 - 1000) / 1000) := by
  have h1 : (WS.serverCandidate (WS.storePosition clientC1 rawC1 1000)
      (WS.sanitize rawC1) 1000).speed = 19.6 := by
    norm_num [WS.serverCandidate, WS.storePosition, WS.updateVehicle,
      WS.sanitize, WS.jsNumOr, WS.friction, rawC1, clientC1]
  have h2 : (WS.updateVehicle clientC1.state (WS.sanitize rawC1)
      ((1000 - 1000) / 1000)).speed = 0 := by
    norm_num [WS.updateVehicle, WS.sanitize, WS.jsNumOr, WS.friction,
      rawC1, clientC1, prevStateC1]
  refine ⟨h1, h2, fun h => ?_⟩
  have := congrArg WS.SrvVehicleState.speed h
  rw [h1, h2] at this
  norm_num at this

/-- C4: `processServerPhysics` sends a reconciliation record referencing
the stored command's sequence to the originating session only, and replaces
the session's stored state with the authoritative candidate, exactly when
one of the three drift thresholds (position distance > 0.5, heading delta
> 0.1, speed delta > 1) is exceeded; otherwise the stored (client-reported)
state is kept unchanged and nothing is sent. -/
theorem c4_reconciliation_iff_threshold_exceeded (client : WS.SrvClient)
    (input : WS.PosMsg) (nowPhysics nowSend : ℝ)
    (hin : client.lastInput = some input) (hopen : client.wsOpen = true) :
    (WS.driftExceeded (WS.serverCandidate client input nowPhysics)
        client.state →
      WS.processServerPhysics client nowPhysics nowSend =
        ({ client with state := WS.serverCandidate client input nowPhysics },
         [WS.Effect.sendTo client.id (WS.WireMsg.serverReconciliation
            (WS.reconMessageOf (WS.serverCandidate client input nowPhysics)
              client.state.sequence nowSend))])) ∧
    (¬ WS.driftExceeded (WS.serverCandidate client input nowPhysics)
        client.state →
      WS.processServerPhysics client nowPhysics nowSend = (client, [])) := by
  constructor
  · intro h
    simp only [WS.processServerPhysics, hin]
    rw [if_pos h]
    simp [hopen]
  · intro h
    simp only [WS.processServerPhysics, hin]
    rw [if_neg h]

/-- The sanitized input stored for the C4 witness session. -/
def inputC4 : WS.PosMsg := WS.sanitize rawC1

/-- The C4 witness session: open socket, one stored input. -/
def clientC4 : WS.SrvClient :=
  { id := 2, lastPing := 0, latency := 0, state := prevStateC1
    lastInput := some inputC4, lastInputTime := 0, wsOpen := true }

/-- C4 witness: the characterization applied to a concrete session. -/
theorem c4_reconciliation_iff_threshold_exceeded_witness :
    clientC4.lastInput = some inputC4 ∧ clientC4.wsOpen = true ∧
    ((WS.driftExceeded (WS.serverCandidate clientC4 inputC4 0)
        clientC4.state →
      WS.processServerPhysics clientC4 0 0 =
        ({ clientC4 with state := WS.serverCandidate clientC4 inputC4 0 },
         [WS.Effect.sendTo clientC4.id (WS.WireMsg.serverReconciliation
            (WS.reconMessageOf (WS.serverCandidate clientC4 inputC4 0)
              clientC4.state.sequence 0))])) ∧
    (¬ WS.driftExceeded (WS.serverCandidate clientC4 inputC4 0)
        clientC4.state →
      WS.processServerPhysics clientC4 0 0 = (clientC4, []))) :=
  ⟨rfl, rfl,
   c4_reconciliation_iff_threshold_exceeded clientC4 inputC4 0 0 rfl rfl⟩

/-- `updateClient` rewrites values in place: the key list is unchanged. -/
theorem map_fst_updateClient (ws : ℕ) (f : WS.SrvClient → WS.SrvClient)
    (l : List (ℕ × WS.SrvClient)) :
    (WS.updateClient ws f l).map Prod.fst = l.map Prod.fst := by
  unfold WS.updateClient
  rw [List.map_map]
  refine List.map_congr_left fun p _ => ?_
  by_cases h : p.1 = ws <;> simp [h]

/-- `updateClient` preserves the number of sessions. -/
theorem length_updateClient (ws : ℕ) (f : WS.SrvClient → WS.SrvClient)
    (l : List (ℕ × WS.SrvClient)) :
    (WS.updateClient ws f l).length = l.length := by
  unfold WS.updateClient
  exact List.length_map _ _

/-- Removing a present key from a map with unique keys removes exactly one
entry. -/
theorem length_filter_ne_of_lookup {l : List (ℕ × WS.SrvClient)} {ws : ℕ}
    {c : WS.SrvClient} (hnd : (l.map Prod.fst).Nodup)
    (hl : l.lookup ws = some c) :
    (l.filter (fun p => p.1 ≠ ws)).length + 1 = l.length := by
  induction l with
  | nil => simp at hl
  | cons p t ih =>
    obtain ⟨k, v⟩ := p
    simp only [List.map_cons, List.nodup_cons] at hnd
    obtain ⟨hp, hnd'⟩ := hnd
    by_cases h : k = ws
    · have ht : t.filter (fun q => q.1 ≠ ws) = t := by
        refine List.filter_eq_self.mpr fun q hq => ?_
        simp only [ne_eq, decide_eq_true_eq]
        intro hq1
        exact hp (by rw [h, ← hq1]; exact List.mem_map_of_mem Prod.fst hq)
      have hhead : List.filter (fun q => q.1 ≠ ws) ((k, v) :: t) =
          List.filter (fun q => q.1 ≠ ws) t := by
        simp [List.filter_cons, h]
      rw [hhead, ht, List.length_cons]
    · have hk : (ws == k) = false := by
        simp only [beq_eq_false_iff_ne, ne_eq]
        exact fun e => h e.symm
      have hl' : t.lookup ws = some c := by
        simpa [List.lookup, hk] using hl
      have hrec := ih hnd' hl'
      have hhead : List.filter (fun q => q.1 ≠ ws) ((k, v) :: t) =
          (k, v) :: List.filter (fun q => q.1 ≠ ws) t := by
        simp [List.filter_cons, h]
      rw [hhead, List.length_cons, List.length_cons]
      omega

/-- The registry invariant: the `activeConnections` counter matches the
session count, the count respects the capacity, and the socket handles are
unique and below the allocator. -/
def RegistryInv (s : WS.WSServer) : Prop :=
  s.activeConnections = s.clients.length ∧
  s.clients.length ≤ WS.MAX_PLAYERS ∧
  (∀ p ∈ s.clients, p.1 < s.nextWs) ∧
  (s.clients.map Prod.fst).Nodup

/-- The registry invariant holds at startup. -/
theorem registryInv_init : RegistryInv WS.initServer := by
  refine ⟨rfl, by norm_num [WS.initServer, WS.MAX_PLAYERS], ?_, ?_⟩ <;>
    simp [WS.initServer]

/-- In-place session mutation preserves the registry invariant. -/
theorem registryInv_updateClient (s : WS.WSServer) (ws : ℕ)
    (f : WS.SrvClient → WS.SrvClient) (h : RegistryInv s) :
    RegistryInv { s with clients := WS.updateClient ws f s.clients } := by
  obtain ⟨hcnt, hcap, hlt, hnd⟩ := h
  have hkeys := map_fst_updateClient ws f s.clients
  have hlen := length_updateClient ws f s.clients
  refine ⟨by simpa [hlen] using hcnt, by simpa [hlen] using hcap,
    fun p hp => ?_, by simpa [hkeys] using hnd⟩
  have hmem : p.1 ∈ s.clients.map Prod.fst := by
    rw [← hkeys]
    exact List.mem_map_of_mem Prod.fst hp
  obtain ⟨q, hq, hqk⟩ := List.mem_map.mp hmem
  simpa [hqk] using hlt q hq

/-- Every server event preserves the registry invariant. -/
theorem registryInv_step (s : WS.WSServer) (e : WS.SrvEvent)
    (h : RegistryInv s) : RegistryInv (WS.step s e).1 := by
  obtain ⟨hcnt, hcap, hlt, hnd⟩ := h
  cases e with
  | connect now =>
    simp only [WS.step, WS.connect]
    by_cases hfull : WS.MAX_PLAYERS ≤ s.activeConnections
    · rw [if_pos hfull]
      exact ⟨hcnt, hcap, fun p hp => Nat.lt_succ_of_lt (hlt p hp), hnd⟩
    · rw [if_neg hfull]
      refine ⟨by simp [hcnt], ?_, ?_, ?_⟩
      · simp only [List.length_append, List.length_singleton]
        omega
      · intro p hp
        rcases List.mem_append.mp hp with hp | hp
        · exact Nat.lt_succ_of_lt (hlt p hp)
        · simp only [List.mem_singleton] at hp
          rw [hp]
          exact Nat.lt_succ_self _
      · rw [List.map_append, List.nodup_append]
        refine ⟨hnd, List.nodup_singleton _, fun k hk hk' => ?_⟩
        simp only [List.map_singleton, List.mem_singleton] at hk'
        obtain ⟨p, hp, hpk⟩ := List.mem_map.mp hk
        exact absurd (hpk ▸ hlt p hp) (by rw [hk']; exact Nat.lt_irrefl _)
  | disconnect ws =>
    simp only [WS.step, WS.disconnect]
    cases hl : s.clients.lookup ws with
    | none => exact ⟨hcnt, hcap, hlt, hnd⟩
    | some c =>
      have hlen := length_filter_ne_of_lookup hnd hl
      have hsub : List.Sublist (s.clients.filter (fun p => p.1 ≠ ws))
          s.clients := List.filter_sublist _
      refine ⟨?_, ?_, fun p hp => hlt p (hsub.subset hp),
        hnd.sublist (hsub.map Prod.fst)⟩
      · show s.activeConnections - 1 =
          (s.clients.filter (fun p => p.1 ≠ ws)).length
        omega
      · show (s.clients.filter (fun p => p.1 ≠ ws)).length ≤ WS.MAX_PLAYERS
        exact le_trans (by omega) hcap
  | message ws raw now1 nowPhysics nowSend =>
    simp only [WS.step]
    cases raw with
    | none => exact ⟨hcnt, hcap, hlt, hnd⟩
    | some m =>
      simp only [WS.handleMessage]
      cases hl : s.clients.lookup ws with
      | none => exact ⟨hcnt, hcap, hlt, hnd⟩
      | some c =>
        cases m with
        | pong ts =>
          exact registryInv_updateClient s ws _ ⟨hcnt, hcap, hlt, hnd⟩
        | position rawPos =>
          exact registryInv_updateClient s ws _ ⟨hcnt, hcap, hlt, hnd⟩
        | chat msg =>
          exact registryInv_updateClient s ws _ ⟨hcnt, hcap, hlt, hnd⟩
        | unknown =>
          exact registryInv_updateClient s ws _ ⟨hcnt, hcap, hlt, hnd⟩
  | sweep now => exact ⟨hcnt, hcap, hlt, hnd⟩

/-- The registry invariant holds in every reachable server state. -/
theorem registryInv_run (es : List WS.SrvEvent) : RegistryInv (WS.run es) := by
  suffices h : ∀ (s : WS.WSServer), RegistryInv s →
      RegistryInv (es.foldl (fun s e => (WS.step s e).1) s) from
    h WS.initServer registryInv_init
  induction es with
  | nil => exact fun s hs => hs
  | cons e t ih =>
    intro s hs
    exact ih _ (registryInv_step s e hs)

/-- C5: in every server state reachable from startup the
`activeConnections` counter equals the number of stored sessions and never
exceeds `MAX_PLAYERS` (32); and whenever a connection arrives while
`activeConnections ≥ MAX_PLAYERS`, the handler closes it with code 1000 and
the fixed reason `"Server full"`, leaving the state untouched except for
the consumed socket handle — no session is stored and `nextClientId` is not
advanced. -/
theorem c5_capacity_invariant_and_server_full_rejection :
    (∀ es : List WS.SrvEvent,
      (WS.run es).activeConnections = (WS.run es).clients.length ∧
      (WS.run es).clients.length ≤ WS.MAX_PLAYERS) ∧
    (∀ (s : WS.WSServer) (now : ℝ),
      WS.MAX_PLAYERS ≤ s.activeConnections →
      WS.connect s now =
        ({ s with nextWs := s.nextWs + 1 },
         [WS.Effect.closeConn s.nextWs 1000 "Server full"])) := by
  constructor
  · intro es
    obtain ⟨h1, h2, _, _⟩ := registryInv_run es
    exact ⟨h1, h2⟩
  · intro s now hfull
    unfold WS.connect
    rw [if_pos hfull]

/-- A server whose 32 capacity slots are all taken (only the fields the
capacity check reads matter). -/
def serverFullC5 : WS.WSServer :=
  { clients := [], nextClientId := 33, nextWs := 40
    activeConnections := 32 }

/-- C5 witness: the run-invariant at a concrete three-event trace, and the
rejection at a concrete full server. -/
theorem c5_capacity_invariant_and_server_full_rejection_witness :
    ((WS.run [WS.SrvEvent.connect 0,
        WS.SrvEvent.connect 1]).activeConnections =
      (WS.run [WS.SrvEvent.connect 0,
        WS.SrvEvent.connect 1]).clients.length ∧
      (WS.run [WS.SrvEvent.connect 0,
        WS.SrvEvent.connect 1]).clients.length ≤ WS.MAX_PLAYERS) ∧
    (WS.MAX_PLAYERS ≤ serverFullC5.activeConnections ∧
      WS.connect serverFullC5 5 =
        ({ serverFullC5 with nextWs := serverFullC5.nextWs + 1 },
         [WS.Effect.closeConn serverFullC5.nextWs 1000 "Server full"])) :=
  ⟨c5_capacity_invariant_and_server_full_rejection.1
      [WS.SrvEvent.connect 0, WS.SrvEvent.connect 1],
   by norm_num [serverFullC5, WS.MAX_PLAYERS],
   c5_capacity_invariant_and_server_full_rejection.2 serverFullC5 5
     (by norm_num [serverFullC5, WS.MAX_PLAYERS])⟩

/-- `processServerPhysics` never touches the session's stored input or its
activity timestamp. -/
theorem processServerPhysics_fields (c : WS.SrvClient) (a b : ℝ) :
    (WS.processServerPhysics c a b).1.lastInput = c.lastInput ∧
    (WS.processServerPhysics c a b).1.lastPing = c.lastPing := by
  rcases hc : c.lastInput with _ | input
  · simp [WS.processServerPhysics, hc]
  · simp only [WS.processServerPhysics, hc]
    split_ifs <;> simp [hc]

/-- `processServerPhysics` emits either nothing or exactly one
reconciliation message sent directly to that session. -/
theorem processServerPhysics_effects (c : WS.SrvClient) (a b : ℝ) :
    (WS.processServerPhysics c a b).2 = [] ∨
    ∃ m, (WS.processServerPhysics c a b).2 =
      [WS.Effect.sendTo c.id (WS.WireMsg.serverReconciliation m)] := by
  rcases hc : c.lastInput with _ | input
  · left
    simp [WS.processServerPhysics, hc]
  · simp only [WS.processServerPhysics, hc]
    split_ifs
    · right
      exact ⟨_, rfl⟩
    · left
      rfl
    · left
      rfl

/-- Looking up the mutated key after `updateClient` sees the mutated
session. -/
theorem lookup_updateClient (ws : ℕ) (f : WS.SrvClient → WS.SrvClient)
    (l : List (ℕ × WS.SrvClient)) :
    (WS.updateClient ws f l).lookup ws = (l.lookup ws).map f := by
  induction l with
  | nil => rfl
  | cons p t ih =>
    obtain ⟨k, v⟩ := p
    unfold WS.updateClient at ih ⊢
    by_cases h : k = ws
    · subst h
      have hhead : (if ((k, v) : ℕ × WS.SrvClient).1 = k then
          (((k, v) : ℕ × WS.SrvClient).1, f v) else (k, v)) = (k, f v) := by
        simp
      rw [List.map_cons, hhead]
      simp [List.lookup]
    · have hk : (ws == k) = false := by
        simp only [beq_eq_false_iff_ne, ne_eq]
        exact fun e => h e.symm
      have hhead : (if ((k, v) : ℕ × WS.SrvClient).1 = ws then
          (((k, v) : ℕ × WS.SrvClient).1, f v) else (k, v)) = (k, v) := by
        simp [h]
      rw [List.map_cons, hhead]
      simp [List.lookup, hk, ih]

/-- Every parsed message type from a known session stores `Date.now()` into
the session's `lastPing` before the type dispatch, so the session survives
with a refreshed activity timestamp. -/
theorem handleMessage_refreshes_lastPing (s : WS.WSServer) (ws : ℕ)
    (c : WS.SrvClient) (m : WS.InMsg) (n1 n2 n3 : ℝ)
    (hl : s.clients.lookup ws = some c) :
    ∃ c', (WS.handleMessage s ws (some m) n1 n2
        n3).1.clients.lookup ws = some c' ∧ c'.lastPing = n1 := by
  simp only [WS.handleMessage, hl]
  cases m with
  | pong ts =>
    refine ⟨_, by rw [lookup_updateClient, hl]; rfl, rfl⟩
  | position rawPos =>
    refine ⟨_, by rw [lookup_updateClient, hl]; rfl, ?_⟩
    show (WS.handlePositionCase { c with lastPing := n1 } ws rawPos n1 n2
      n3).1.lastPing = n1
    unfold WS.handlePositionCase
    exact (processServerPhysics_fields _ n2 n3).2
  | chat msg =>
    refine ⟨_, by rw [lookup_updateClient, hl]; rfl, rfl⟩
  | unknown =>
    refine ⟨_, by rw [lookup_updateClient, hl]; rfl, rfl⟩

/-- `handleMessage` never adds or removes sessions: the key list is
untouched. -/
theorem handleMessage_map_fst (s : WS.WSServer) (ws : ℕ)
    (raw : Option WS.InMsg) (n1 n2 n3 : ℝ) :
    (WS.handleMessage s ws raw n1 n2 n3).1.clients.map Prod.fst =
      s.clients.map Prod.fst := by
  cases raw with
  | none => rfl
  | some m =>
    cases hl : s.clients.lookup ws with
    | none => simp only [WS.handleMessage, hl]
    | some c =>
      cases m <;> simp only [WS.handleMessage, hl] <;>
        exact map_fst_updateClient ws _ s.clients

/-- The message-trace runner: each inbound parsed message of the trace is
handled at its arrival time (the handler's `Date.now()` calls all fall at
that time). -/
noncomputable def runMsgs (s : WS.WSServer) (ws : ℕ)
    (msgs : List (ℝ × WS.InMsg)) : WS.WSServer :=
  msgs.foldl (fun st m => (WS.handleMessage st ws (some m.2) m.1 m.1 m.1).1) s

/-- A known session survives a message trace. -/
theorem runMsgs_lookup_isSome (s : WS.WSServer) (ws : ℕ) (c : WS.SrvClient)
    (msgs : List (ℝ × WS.InMsg)) (hl : s.clients.lookup ws = some c) :
    ∃ c', (runMsgs s ws msgs).clients.lookup ws = some c' := by
  induction msgs generalizing s c with
  | nil => exact ⟨c, hl⟩
  | cons m t ih =>
    obtain ⟨c1, hc1, _⟩ :=
      handleMessage_refreshes_lastPing s ws c m.2 m.1 m.1 m.1 hl
    exact ih _ c1 hc1

/-- A known session's key list survives a message trace. -/
theorem runMsgs_map_fst (s : WS.WSServer) (ws : ℕ)
    (msgs : List (ℝ × WS.InMsg)) :
    (runMsgs s ws msgs).clients.map Prod.fst = s.clients.map Prod.fst := by
  induction msgs generalizing s with
  | nil => rfl
  | cons m t ih =>
    unfold runMsgs
    rw [List.foldl_cons]
    exact (ih _).trans (handleMessage_map_fst s ws (some m.2) m.1 m.1 m.1)

/-- After a nonempty message trace the session's `lastPing` equals the last
message's arrival time. -/
theorem runMsgs_lastPing (s : WS.WSServer) (ws : ℕ) (c : WS.SrvClient)
    (msgs : List (ℝ × WS.InMsg)) (hl : s.clients.lookup ws = some c)
    (hne : msgs ≠ []) :
    ∃ c', (runMsgs s ws msgs).clients.lookup ws = some c' ∧
      c'.lastPing = (msgs.getLast hne).1 := by
  induction msgs using List.reverseRecOn generalizing s c with
  | nil => exact absurd rfl hne
  | append_singleton t m _ =>
    obtain ⟨c1, hc1⟩ := runMsgs_lookup_isSome s ws c t hl
    obtain ⟨c', hc', hping⟩ :=
      handleMessage_refreshes_lastPing (runMsgs s ws t) ws c1 m.2 m.1 m.1
        m.1 hc1
    refine ⟨c', ?_, ?_⟩
    · unfold runMsgs
      rw [List.foldl_append, List.foldl_cons, List.foldl_nil]
      exact hc'
    · rw [List.getLast_append]
      exact hping

/-- With unique keys, a stored pair is what lookup returns. -/
theorem lookup_of_mem_nodup {l : List (ℕ × WS.SrvClient)} {k : ℕ}
    {v : WS.SrvClient} (hnd : (l.map Prod.fst).Nodup) (hm : (k, v) ∈ l) :
    l.lookup k = some v := by
  induction l with
  | nil => simp at hm
  | cons p t ih =>
    obtain ⟨k', v'⟩ := p
    simp only [List.map_cons, List.nodup_cons] at hnd
    obtain ⟨hk', hnd'⟩ := hnd
    rcases List.mem_cons.mp hm with h | h
    · obtain ⟨h1, h2⟩ := Prod.mk.injEq .. ▸ h
      subst h1
      subst h2
      simp [List.lookup]
    · have hne : (k == k') = false := by
        simp only [beq_eq_false_iff_ne, ne_eq]
        intro e
        exact hk' (e ▸ List.mem_map_of_mem Prod.fst h)
      simp [List.lookup, hne, ih hnd' h]

/-- C9: an unparseable inbound message is dropped — the state is unchanged
and no effect (in particular no connection close) is produced; and inside a
position message every missing or non-numeric field is replaced by its
documented default (position → x 0 / y 0.5 / z 0, rotation → 0, speed → 0,
sequence → 0, absent controls → all flags false) after which the message is
processed — the sanitized command is stored as the session's last input —
rather than rejected, again closing no connection. -/
theorem c9_malformed_dropped_and_defaults_applied :
    (∀ (s : WS.WSServer) (ws : ℕ) (n1 n2 n3 : ℝ),
      WS.handleMessage s ws none n1 n2 n3 = (s, [])) ∧
    (∀ raw : WS.RawPosMsg,
      (raw.position = none → (WS.sanitize raw).posX = 0 ∧
        (WS.sanitize raw).posY = 0.5 ∧ (WS.sanitize raw).posZ = 0) ∧
      (∀ p, raw.position = some p →
        (WS.sanitize raw).posX = WS.jsNumOr p.x 0 ∧
        (WS.sanitize raw).posY = WS.jsNumOr p.y 0.5 ∧
        (WS.sanitize raw).posZ = WS.jsNumOr p.z 0) ∧
      (raw.rotation = WS.JsVal.other → (WS.sanitize raw).rotation = 0) ∧
      (∀ x, raw.rotation = WS.JsVal.num x → (WS.sanitize raw).rotation = x) ∧
      (raw.speed = WS.JsVal.other → (WS.sanitize raw).speed = 0) ∧
      (∀ x, raw.speed = WS.JsVal.num x → (WS.sanitize raw).speed = x) ∧
      (raw.sequence = WS.JsVal.other → (WS.sanitize raw).sequence = 0) ∧
      (∀ x, raw.sequence = WS.JsVal.num x → (WS.sanitize raw).sequence = x) ∧
      (raw.controls = none → (WS.sanitize raw).controls = {}) ∧
      (∀ cs, raw.controls = some cs → (WS.sanitize raw).controls = cs)) ∧
    (∀ (s : WS.WSServer) (ws : ℕ) (c : WS.SrvClient) (raw : WS.RawPosMsg)
        (n1 n2 n3 : ℝ), s.clients.lookup ws = some c →
      (WS.handleMessage s ws (some (WS.InMsg.position raw)) n1 n2
          n3).1.clients =
        WS.updateClient ws
          (fun _ => (WS.handlePositionCase { c with lastPing := n1 } ws raw
            n1 n2 n3).1) s.clients ∧
      (WS.handlePositionCase { c with lastPing := n1 } ws raw n1 n2
          n3).1.lastInput = some (WS.sanitize raw) ∧
      ∀ e ∈ (WS.handleMessage s ws (some (WS.InMsg.position raw)) n1 n2
          n3).2, ∀ (w code : ℕ) (reason : String),
        e ≠ WS.Effect.closeConn w code reason) := by
  refine ⟨fun s ws n1 n2 n3 => rfl, ?_, ?_⟩
  · intro raw
    refine ⟨fun hp => ?_, fun p hp => ?_, fun hr => ?_, fun x hr => ?_,
      fun hs => ?_, fun x hs => ?_, fun hq => ?_, fun x hq => ?_,
      fun hc => ?_, fun cs hc => ?_⟩
    · simp [WS.sanitize, WS.jsNumOr, hp]
    · simp [WS.sanitize, hp]
    · simp [WS.sanitize, WS.jsNumOr, hr]
    · simp [WS.sanitize, WS.jsNumOr, hr]
    · simp [WS.sanitize, WS.jsNumOr, hs]
    · simp [WS.sanitize, WS.jsNumOr, hs]
    · simp [WS.sanitize, WS.jsNumOr, hq]
    · simp [WS.sanitize, WS.jsNumOr, hq]
    · simp [WS.sanitize, hc]
    · simp [WS.sanitize, hc]
  · intro s ws c raw n1 n2 n3 hl
    refine ⟨by simp only [WS.handleMessage, hl], ?_, ?_⟩
    · show (WS.handlePositionCase { c with lastPing := n1 } ws raw n1 n2
        n3).1.lastInput = some (WS.sanitize raw)
      unfold WS.handlePositionCase
      rw [(processServerPhysics_fields _ n2 n3).1]
      rfl
    · intro e he w code reason
      simp only [WS.handleMessage, hl] at he
      unfold WS.handlePositionCase at he
      rcases List.mem_append.mp he with h | h
      · rcases processServerPhysics_effects
          (WS.storePosition { c with lastPing := n1 } raw n1) n2 n3 with
          hz | ⟨m, hz⟩
        · rw [hz] at h
          simp at h
        · rw [hz] at h
          simp only [List.mem_singleton] at h
          subst h
          simp
      · simp only [List.mem_singleton] at h
        subst h
        simp

/-- The C9/C10 witness session. -/
def clientC9 : WS.SrvClient :=
  { id := 3, lastPing := 0, latency := 0, state := prevStateC1
    lastInput := none, lastInputTime := 0, wsOpen := true }

/-- A single-session server for the C9/C10 witnesses. -/
def sC9 : WS.WSServer :=
  { clients := [(0, clientC9)], nextClientId := 2, nextWs := 1
    activeConnections := 1 }

/-- A raw position message with every field missing or non-numeric. -/
def rawAllBad : WS.RawPosMsg :=
  { position := none, rotation := WS.JsVal.other, speed := WS.JsVal.other
    sequence := WS.JsVal.other, controls := none
    timestamp := WS.JsVal.other }

/-- C9 witness: the drop clause, the defaults at an all-bad message, and
the processing clause at the one-session server. -/
theorem c9_malformed_dropped_and_defaults_applied_witness :
    (WS.handleMessage sC9 0 none 1 2 3 = (sC9, [])) ∧
    (rawAllBad.position = none → (WS.sanitize rawAllBad).posX = 0 ∧
      (WS.sanitize rawAllBad).posY = 0.5 ∧
      (WS.sanitize rawAllBad).posZ = 0) ∧
    (rawAllBad.controls = none → (WS.sanitize rawAllBad).controls = {}) ∧
    sC9.clients.lookup 0 = some clientC9 ∧
    ((WS.handleMessage sC9 0 (some (WS.InMsg.position rawAllBad)) 4 4
        4).1.clients =
      WS.updateClient 0
        (fun _ => (WS.handlePositionCase { clientC9 with lastPing := 4 } 0
          rawAllBad 4 4 4).1) sC9.clients ∧
      (WS.handlePositionCase { clientC9 with lastPing := 4 } 0 rawAllBad 4 4
          4).1.lastInput = some (WS.sanitize rawAllBad) ∧
      ∀ e ∈ (WS.handleMessage sC9 0 (some (WS.InMsg.position rawAllBad)) 4 4
          4).2, ∀ (w code : ℕ) (reason : String),
        e ≠ WS.Effect.closeConn w code reason) :=
  ⟨c9_malformed_dropped_and_defaults_applied.1 sC9 0 1 2 3,
   (c9_malformed_dropped_and_defaults_applied.2.1 rawAllBad).1,
   (c9_malformed_dropped_and_defaults_applied.2.1
     rawAllBad).2.2.2.2.2.2.2.2.1,
   rfl,
   c9_malformed_dropped_and_defaults_applied.2.2 sC9 0 clientC9 rawAllBad
     4 4 4 rfl⟩

/-- C10: every successfully parsed message from a known session — whatever
its type, `pong`, `position`, `chat` or unrecognized — refreshes the
session's `lastPing` activity timestamp to the arrival time; consequently,
after any nonempty trace of parsed messages whose last arrival is within
`TIMEOUT_DURATION` of the sweep time, the idle sweep emits no close for
that session, even if no message in the trace is a `pong`. -/
theorem c10_any_parsed_message_defers_timeout :
    (∀ (s : WS.WSServer) (ws : ℕ) (c : WS.SrvClient) (m : WS.InMsg)
        (n1 n2 n3 : ℝ), s.clients.lookup ws = some c →
      ∃ c', (WS.handleMessage s ws (some m) n1 n2 n3).1.clients.lookup ws =
          some c' ∧ c'.lastPing = n1) ∧
    (∀ (s : WS.WSServer) (ws : ℕ) (c : WS.SrvClient)
        (msgs : List (ℝ × WS.InMsg)) (sweepTime : ℝ),
      (s.clients.map Prod.fst).Nodup →
      s.clients.lookup ws = some c →
      ∀ (hne : msgs ≠ []),
      sweepTime - (msgs.getLast hne).1 ≤ WS.TIMEOUT_DURATION →
      ∀ (code : ℕ) (reason : String),
        WS.Effect.closeConn ws code reason ∉
          WS.sweepEffects (runMsgs s ws msgs) sweepTime) := by
  constructor
  · exact fun s ws c m n1 n2 n3 hl =>
      handleMessage_refreshes_lastPing s ws c m n1 n2 n3 hl
  · intro s ws c msgs sweepTime hnd hl hne hfresh code reason hmem
    obtain ⟨c', hc', hping⟩ := runMsgs_lastPing s ws c msgs hl hne
    unfold WS.sweepEffects at hmem
    obtain ⟨p, hp, hfp⟩ := List.mem_filterMap.mp hmem
    by_cases hcond : WS.TIMEOUT_DURATION < sweepTime - p.2.lastPing
    · rw [if_pos hcond] at hfp
      have hinj := Option.some.inj hfp
      injection hinj with h1 h2 h3
      have hnd' : ((runMsgs s ws msgs).clients.map Prod.fst).Nodup := by
        rw [runMsgs_map_fst]
        exact hnd
      have hlk : (runMsgs s ws msgs).clients.lookup p.1 = some p.2 :=
        lookup_of_mem_nodup hnd' hp
      rw [h1, hc'] at hlk
      have hpc : p.2 = c' := (Option.some.inj hlk).symm
      rw [hpc, hping] at hcond
      exact absurd hcond (not_lt.mpr hfresh)
    · rw [if_neg hcond] at hfp
      exact Option.noConfusion hfp

/-- The witness message trace: an unrecognized type then a chat — no pong,
no position. -/
def msgsC10 : List (ℝ × WS.InMsg) :=
  [(1000, WS.InMsg.unknown), (2000, WS.InMsg.chat "hi")]

/-- C10 witness: a concrete single-session server processing two non-pong
messages, swept 4 s after the last one. -/
theorem c10_any_parsed_message_defers_timeout_witness :
    (sC9.clients.map Prod.fst).Nodup ∧
    sC9.clients.lookup 0 = some clientC9 ∧
    msgsC10 ≠ [] ∧
    (∃ c', (WS.handleMessage sC9 0 (some WS.InMsg.unknown) 1000 1000
        1000).1.clients.lookup 0 = some c' ∧ c'.lastPing = 1000) ∧
    ∀ (code : ℕ) (reason : String),
      WS.Effect.closeConn 0 code reason ∉
        WS.sweepEffects (runMsgs sC9 0 msgsC10) 6000 :=
  ⟨by simp [sC9], rfl, by simp [msgsC10],
   c10_any_parsed_message_defers_timeout.1 sC9 0 clientC9 WS.InMsg.unknown
     1000 1000 1000 rfl,
   fun code reason =>
     c10_any_parsed_message_defers_timeout.2 sC9 0 clientC9 msgsC10 6000
       (by simp [sC9]) rfl (by simp [msgsC10])
       (by norm_num [msgsC10, List.getLast, WS.TIMEOUT_DURATION]) code
       reason⟩

/-- A concrete authoritative candidate state used to exercise the
reconciliation message builder. -/
def candEx : WS.SrvVehicleState :=
  { x := 5, y := 0.5, z := 3, rotation := 0, speed := 2, sequence := 7
    timestamp := 0 }

/-- C2: the claim says every `serverReconciliation` message carries the
target session's `id`, which the receiving client compares against its own
id before applying the correction.  The message the server builds has **no**
`id` field (`reconMessageOf … = none`), and since
`handleServerReconciliationMessage` applies a correction only when the
message's `id` equals the client's own numeric id, every client — here the
one with id 1 the message was built for — ignores every reconciliation
message the server actually sends. -/
theorem c2_reconciliation_message_lacks_id :
    (WS.reconMessageOf candEx 7 1234).id = none ∧
    Connection.reconAccepted (some 1) (WS.reconMessageOf candEx 7 1234) =
      false ∧
    Connection.reconAccepted none (WS.reconMessageOf candEx 7 1234) =
      false :=
  ⟨rfl, rfl, rfl⟩

/-- Each non-skipped `Vehicle.update` appends exactly one entry to the
pending-input queue, whatever its current length. -/
theorem update_pendingInputs_length (v : Vehicle.VehicleRec)
    (ctl : Vehicle.CControls) (deltaTime : ℝ)
    (col : Option Vehicle.CollisionInfo) (now : ℝ) (h : deltaTime ≠ 0) :
    (Vehicle.update v (some ctl) deltaTime col now).pendingInputs.length =
      v.pendingInputs.length + 1 := by
  simp only [Vehicle.update]
  rw [if_neg h]
  simp

/-- An accelerate-only keyboard state. -/
def ctlUp : Vehicle.CControls := { up := true }

/-- A vehicle at rest at the spawn position with empty queues. -/
def v0Vehicle : Vehicle.VehicleRec :=
  { state :=
      { speed := 0, rotation := 0, posX := 0, posY := 0.5, posZ := 0
        angularVelocity := 0, isColliding := false, lastCollision := none }
    inputHistory := []
    pendingInputs := []
    sequence := 0
    lastProcessedServerState := none }

/-- `n` consecutive local updates (16 ms frames, accelerating, no
collision, no reconciliation in between). -/
noncomputable def pump (n : ℕ) : Vehicle.VehicleRec :=
  (List.range n).foldl (fun v _ => Vehicle.update v (some ctlUp) 16 none 0)
    v0Vehicle

/-- After `n` updates with no acknowledgement the pending queue holds `n`
entries. -/
theorem pump_pendingInputs_length (n : ℕ) :
    (pump n).pendingInputs.length = n := by
  induction n with
  | zero => rfl
  | succ n ih =>
    have hstep : pump (n + 1) =
        Vehicle.update (pump n) (some ctlUp) 16 none 0 := by
      unfold pump
      rw [List.range_succ, List.foldl_append]
      rfl
    rw [hstep, update_pendingInputs_length (pump n) ctlUp 16 none 0
      (by norm_num), ih]

/-- C6 counterexample: the claim says the number of unacknowledged inputs
retained for replay never exceeds a fixed cap (the code's only cap is
`historyMaxSize = 100`, which bounds `inputHistory`), so a replay processes
at most that many inputs.  But `pendingInputs` — the queue the replay
walks — receives one entry per update and is trimmed only by
acknowledgements: after 101 updates with no reconciliation it holds 101
entries, exceeding the cap. -/
theorem c6_pending_queue_exceeds_cap_counterexample :
    (pump 101).pendingInputs.length = 101 ∧
    ¬ (pump 101).pendingInputs.length ≤ Vehicle.historyMaxSize := by
  have h := pump_pendingInputs_length 101
  exact ⟨h, by rw [h]; norm_num [Vehicle.historyMaxSize]⟩

/-- C6 (amended): `inputHistory` is the bounded queue — each update appends
the new command and shifts off the oldest entry when the length would
exceed `historyMaxSize` (100), so its length never exceeds 100 — while
`pendingInputs` grows by exactly one entry per update, without any cap. -/
theorem c6_history_bounded_pending_grows (v : Vehicle.VehicleRec)
    (ctl : Vehicle.CControls) (deltaTime : ℝ)
    (col : Option Vehicle.CollisionInfo) (now : ℝ) (hdt : deltaTime ≠ 0) :
    (Vehicle.update v (some ctl) deltaTime col now).pendingInputs.length =
      v.pendingInputs.length + 1 ∧
    (v.inputHistory.length ≤ Vehicle.historyMaxSize →
      (Vehicle.update v (some ctl) deltaTime col now).inputHistory.length ≤
        Vehicle.historyMaxSize) := by
  constructor
  · exact update_pendingInputs_length v ctl deltaTime col now hdt
  · intro hlen
    simp only [Vehicle.update]
    rw [if_neg hdt]
    by_cases hc : Vehicle.historyMaxSize < (v.inputHistory ++
      [(⟨v.sequence, Vehicle.normalizeControls ctl, deltaTime / 1000, now,
        col⟩ : Vehicle.CInput)]).length
    · simp only [if_pos hc]
      simp only [List.length_tail, List.length_append, List.length_singleton]
      omega
    · simp only [if_neg hc]
      simp only [List.length_append, List.length_singleton] at hc ⊢
      omega

/-- `findIndex` on a list whose first match sits after the prefix `A`. -/
theorem findIdx?_append_cons {α : Type} (p : α → Bool) (A B : List α)
    (a : α) (hA : ∀ x ∈ A, p x = false) (ha : p a = true) :
    (A ++ a :: B).findIdx? p = some A.length := by
  induction A with
  | nil => simp [List.findIdx?_cons, ha]
  | cons x t ih =>
    have hx := hA x (by simp)
    have ht := ih fun y hy => hA y (by simp [hy])
    simp [List.findIdx?_cons, hx, ht]

/-- Dropping the prefix and the matched element leaves the suffix. -/
theorem drop_length_append_cons {α : Type} (A B : List α) (a : α) :
    (A ++ a :: B).drop (A.length + 1) = B := by
  have h1 : A ++ a :: B = (A ++ [a]) ++ B := by simp
  have h2 : A.length + 1 = (A ++ [a]).length := by simp
  rw [h1, h2, List.drop_left]

/-- C3 (amended): on receiving a reconciliation record for sequence `S`
that is present in the pending queue (whose earlier entries have other
sequences, as the per-session sequence is strictly increasing), the client
discards the acknowledged input together with everything queued before it;
but it overwrites the local state with the authoritative values and replays
the remaining pending inputs **only when** the authoritative state differs
from the current local one beyond the client's thresholds (planar distance
> 0.5, heading > 0.1 rad, speed > 2); otherwise the local state is left
untouched.  In both cases the record is stored as the last processed server
state. -/
theorem c3_reconciliation_trims_and_replays_conditionally
    (v : Vehicle.VehicleRec) (serverState : Vehicle.ServerStateMsg) (S : ℕ)
    (A B : List Vehicle.CInput) (a : Vehicle.CInput)
    (hpend : v.pendingInputs = A ++ a :: B) (ha : a.sequence = S)
    (hA : ∀ x ∈ A, x.sequence ≠ S) :
    (Vehicle.applyServerReconciliation v serverState S).pendingInputs = B ∧
    (Vehicle.significantDiscrepancy serverState v.state →
      (Vehicle.applyServerReconciliation v serverState S).state =
        B.foldl Vehicle.processInputState
          { v.state with
            posX := serverState.posX
            posY := Vehicle.fixedHeight
            posZ := serverState.posZ
            rotation := serverState.rotation
            speed := serverState.speed }) ∧
    (¬ Vehicle.significantDiscrepancy serverState v.state →
      (Vehicle.applyServerReconciliation v serverState S).state = v.state) ∧
    (Vehicle.applyServerReconciliation v serverState
        S).lastProcessedServerState = some serverState := by
  have hfind : v.pendingInputs.findIdx? (fun i => i.sequence = S) =
      some A.length := by
    rw [hpend]
    refine findIdx?_append_cons _ A B a (fun x hx => ?_) (by simp [ha])
    simpa using hA x hx
  have hdrop : v.pendingInputs.drop (A.length + 1) = B := by
    rw [hpend]
    exact drop_length_append_cons A B a
  by_cases hsig : Vehicle.significantDiscrepancy serverState v.state
  · refine ⟨?_, fun _ => ?_, fun hns => absurd hsig hns, ?_⟩ <;>
      simp [Vehicle.applyServerReconciliation, hfind, hdrop, if_pos hsig]
  · refine ⟨?_, fun hs => absurd hs hsig, fun _ => ?_, ?_⟩ <;>
      simp [Vehicle.applyServerReconciliation, hfind, hdrop, if_neg hsig]

/-- One pending accelerate command with sequence 0 (dt = 0.1 s). -/
def iC3a : Vehicle.CInput :=
  { sequence := 0, controls := Vehicle.normalizeControls ctlUp
    deltaTime := 0.1, timestamp := 0, collision := none }

/-- One pending accelerate command with sequence 1 (dt = 0.1 s). -/
def iC3b : Vehicle.CInput :=
  { sequence := 1, controls := Vehicle.normalizeControls ctlUp
    deltaTime := 0.1, timestamp := 0, collision := none }

/-- The resting vehicle with two unacknowledged accelerate commands. -/
def vC3 : Vehicle.VehicleRec :=
  { v0Vehicle with
    inputHistory := [iC3a, iC3b]
    pendingInputs := [iC3a, iC3b]
    sequence := 2 }

/-- An authoritative server state identical to the local state. -/
def sstC3 : Vehicle.ServerStateMsg :=
  { posX := 0, posY := 0.5, posZ := 0, rotation := 0, speed := 0 }

/-- The state the claim says the client must snap to before replaying. -/
def snappedC3 : Vehicle.CVehState :=
  { vC3.state with
    posX := sstC3.posX
    posY := Vehicle.fixedHeight
    posZ := sstC3.posZ
    rotation := sstC3.rotation
    speed := sstC3.speed }

/-- C3 witness: the amended theorem at the concrete client with pending
queue `[iC3a, iC3b]` acknowledged at sequence 0. -/
theorem c3_reconciliation_trims_and_replays_conditionally_witness :
    vC3.pendingInputs = [] ++ iC3a :: [iC3b] ∧ iC3a.sequence = 0 ∧
    (∀ x ∈ ([] : List Vehicle.CInput), x.sequence ≠ 0) ∧
    ((Vehicle.applyServerReconciliation vC3 sstC3 0).pendingInputs =
        [iC3b] ∧
      (Vehicle.significantDiscrepancy sstC3 vC3.state →
        (Vehicle.applyServerReconciliation vC3 sstC3 0).state =
          [iC3b].foldl Vehicle.processInputState
            { vC3.state with
              posX := sstC3.posX
              posY := Vehicle.fixedHeight
              posZ := sstC3.posZ
              rotation := sstC3.rotation
              speed := sstC3.speed }) ∧
      (¬ Vehicle.significantDiscrepancy sstC3 vC3.state →
        (Vehicle.applyServerReconciliation vC3 sstC3 0).state =
          vC3.state) ∧
      (Vehicle.applyServerReconciliation vC3 sstC3
          0).lastProcessedServerState = some sstC3) :=
  ⟨rfl, rfl, by simp,
   c3_reconciliation_trims_and_replays_conditionally vC3 sstC3 0 [] [iC3b]
     iC3a rfl rfl (by simp)⟩

/-- C3 counterexample: the claim says the overwrite and the replay happen
unconditionally for every received record.  With the authoritative state
equal to the local one (no significant discrepancy), the code leaves the
local state untouched (speed stays 0) instead of replaying the remaining
pending accelerate command as the claim requires (which would give speed
`15 · 0.1 = 3/2`). -/
theorem c3_no_replay_without_discrepancy_counterexample :
    (Vehicle.applyServerReconciliation vC3 sstC3 0).state.speed = 0 ∧
    (((Vehicle.applyServerReconciliation vC3 sstC3 0).pendingInputs).foldl
        Vehicle.processInputState snappedC3).speed = 3 / 2 ∧
    (Vehicle.applyServerReconciliation vC3 sstC3 0).state ≠
      ((Vehicle.applyServerReconciliation vC3 sstC3 0).pendingInputs).foldl
        Vehicle.processInputState snappedC3 := by
  have hnsig : ¬ Vehicle.significantDiscrepancy sstC3 vC3.state := by
    intro h
    rcases h with h | h | h <;>
      simp only [Vehicle.significantDiscrepancy, sstC3, vC3, v0Vehicle] at h <;>
      norm_num [Real.sqrt_zero] at h
  have hfind : vC3.pendingInputs.findIdx? (fun i => i.sequence = 0) =
      some 0 := by
    simp [vC3, v0Vehicle, List.findIdx?_cons, iC3a]
  have hstate : (Vehicle.applyServerReconciliation vC3 sstC3 0).state =
      vC3.state := by
    simp only [Vehicle.applyServerReconciliation, hfind]
    rw [if_neg hnsig]
  have hpend : (Vehicle.applyServerReconciliation vC3 sstC3 0).pendingInputs =
      [iC3b] := by
    simp only [Vehicle.applyServerReconciliation, hfind]
    rw [if_neg hnsig]
    rfl
  have hspeed0 : vC3.state.speed = 0 := rfl
  have hreplay : (([iC3b] : List Vehicle.CInput).foldl
      Vehicle.processInputState snappedC3).speed = 3 / 2 := by
    simp only [List.foldl_cons, List.foldl_nil, Vehicle.processInputState,
      iC3b, Vehicle.normalizeControls, ctlUp, snappedC3, sstC3, vC3,
      v0Vehicle]
    norm_num [Vehicle.acceleration, Vehicle.maxSpeed]
  refine ⟨by rw [hstate, hspeed0], by rw [hpend]; exact hreplay, ?_⟩
  rw [hstate, hpend]
  intro h
  have := congrArg Vehicle.CVehState.speed h
  rw [hspeed0, hreplay] at this
  norm_num at this

/-- C6 witness: a concrete 16 ms accelerating update on the fresh
vehicle. -/
theorem c6_history_bounded_pending_grows_witness :
    ((16 : ℝ) ≠ 0) ∧
    ((Vehicle.update v0Vehicle (some ctlUp) 16 none 0).pendingInputs.length =
        v0Vehicle.pendingInputs.length + 1 ∧
      (v0Vehicle.inputHistory.length ≤ Vehicle.historyMaxSize →
        (Vehicle.update v0Vehicle (some ctlUp) 16 none
            0).inputHistory.length ≤ Vehicle.historyMaxSize)) :=
  ⟨by norm_num,
   c6_history_bounded_pending_grows v0Vehicle ctlUp 16 none 0 (by norm_num)⟩
